import Mathlib

/-!
Shallow embedding of the Discord webhook service
(`src/services/cpp-drogon/main.cc`) and proofs about its
signature-validation, parsing, dispatch, redaction and publish logic.

JSON values are modelled by an inductive type mirroring `Json::Value`
(jsoncpp).  Objects are association lists of key/value pairs; jsoncpp
stores members in a map keyed by string, and all properties proved here
depend only on key membership and lookup, which the association-list
model reproduces exactly.  Integral JSON numbers are modelled by `Int`
(jsoncpp `isInt` additionally checks the signed 32-bit range, which the
model keeps); non-integral numbers do not occur in any claim and are
omitted.
-/

inductive Json where
  | null : Json
  | bool : Bool → Json
  | num : Int → Json
  | str : String → Json
  | arr : List Json → Json
  | obj : List (String × Json) → Json

/-- Model of jsoncpp `Value::isObject`: true exactly for object values. -/
def Json.isObject : Json → Bool
  | .obj _ => true
  | _ => false

/-- Model of jsoncpp `Value::isMember`.  jsoncpp defines membership for
null (always false) and object values; the other constructors never
reach a `isMember` call on the code paths modelled here. -/
def Json.isMember : Json → String → Bool
  | .obj fields, k => fields.any (fun f => f.1 == k)
  | _, _ => false

/-- Model of the const `Value::operator[]`: look up a key in an object,
returning the null value when the key is absent or the value is not an
object. -/
def Json.getField : Json → String → Json
  | .obj fields, k => match fields.find? (fun f => f.1 == k) with
    | some f => f.2
    | none => .null
  | _, _ => .null

/-- Model of jsoncpp `Value::isInt`: an integral value that fits in a
signed 32-bit integer. -/
def Json.isInt : Json → Bool
  | .num n => decide (-2147483648 ≤ n ∧ n ≤ 2147483647)
  | _ => false

/-- Model of jsoncpp `Value::asInt` on values that satisfy `isInt`
(the code only calls it under that guard). -/
def Json.asInt : Json → Int
  | .num n => n
  | _ => 0

/-! ## Redactor (`sanitizeInteraction`, main.cc lines 146-162) -/

/-- Model of the jsoncpp assignment `fields[k] = v` on an object's
member list: replace the value of an existing key, otherwise add the
pair. -/
def setAssoc : List (String × Json) → String → Json → List (String × Json)
  | [], k, v => [(k, v)]
  | (k', v') :: rest, k, v =>
    if k' == k then (k, v) :: rest else (k', v') :: setAssoc rest k v

/-- Model of the non-const `Value::operator[]` assignment
`sanitized[k] = v`: a null value becomes a one-member object, an object
gets the member set.  jsoncpp asserts on the remaining types; the
accumulator in `sanitizeInteraction` is always null or an object, so
those cases are unreachable and left untouched. -/
def setField (j : Json) (k : String) (v : Json) : Json :=
  match j with
  | .null => .obj [(k, v)]
  | .obj fields => .obj (setAssoc fields k v)
  | other => other

/-- The ten field names copied by `sanitizeInteraction`, in source
order. -/
def allowedFields : List String :=
  ["type", "id", "application_id", "data", "guild_id", "channel_id",
   "member", "user", "locale", "guild_locale"]

/-- One `if (interaction.isMember(k)) sanitized[k] = interaction[k];`
statement of `sanitizeInteraction`. -/
def copyField (interaction : Json) (sanitized : Json) (k : String) : Json :=
  if interaction.isMember k then setField sanitized k (interaction.getField k)
  else sanitized

/-- Model of `sanitizeInteraction` (main.cc lines 146-162): starting
from the default-constructed (null) `sanitized` value, the ten guarded
copy statements are the left fold of `copyField` over `allowedFields`
in source order. -/
def sanitizeInteraction (interaction : Json) : Json :=
  allowedFields.foldl (copyField interaction) Json.null

/-! ## Request handler (`handleInteraction`, main.cc lines 278-328) -/

/-- An HTTP response as produced by the handler: status code plus JSON
body.  `newHttpJsonResponse` defaults to status 200. -/
structure HttpResponse where
  status : Nat
  body : Json

/-- Model of `errorResponse` (main.cc lines 135-141). -/
def errorResponse (status : Nat) (error : String) : HttpResponse :=
  { status := status, body := Json.obj [("error", Json.str error)] }

/-- The observable outcome of one request: the response passed to the
callback, and the payload handed to the detached publish thread
(`none` when no publish task is spawned). -/
structure HandlerOutcome where
  response : HttpResponse
  publishTask : Option Json

/-- Model of `handlePing` (main.cc lines 254-258): a 200 response whose
body is the object with single member `type = 1` (RESPONSE_TYPE_PONG). -/
def handlePing : HttpResponse :=
  { status := 200, body := Json.obj [("type", Json.num 1)] }

/-- Model of `handleApplicationCommand` (main.cc lines 263-273): spawn
a detached thread running `publishToPubSub interaction` and answer 200
with body `type = 5` (RESPONSE_TYPE_DEFERRED_CHANNEL_MESSAGE). -/
def handleApplicationCommand (interaction : Json) : HandlerOutcome :=
  { response := { status := 200, body := Json.obj [("type", Json.num 5)] },
    publishTask := some interaction }

/-- Model of `handleInteraction` (main.cc lines 278-328).  The two
effectful inputs are abstracted: `sigValid` is the result of
`validateSignature` on the request's headers and body, and
`parseResult` is the result of `Json::parseFromStream` on the body
(`none` when the body is not syntactically valid JSON).  The `switch`
on the interaction type is rendered as the equivalent if-chain. -/
def handleInteraction (sigValid : Bool) (parseResult : Option Json) : HandlerOutcome :=
  if !sigValid then { response := errorResponse 401 "invalid signature", publishTask := none }
  else
    match parseResult with
    | none => { response := errorResponse 400 "invalid JSON", publishTask := none }
    | some interaction =>
      if !interaction.isObject then
        { response := errorResponse 400 "invalid JSON", publishTask := none }
      else if !(interaction.isMember "type" && (interaction.getField "type").isInt) then
        { response := errorResponse 400 "unsupported interaction type", publishTask := none }
      else
        if (interaction.getField "type").asInt = 1 then
          { response := handlePing, publishTask := none }
        else if (interaction.getField "type").asInt = 2 then
          handleApplicationCommand interaction
        else
          { response := errorResponse 400 "unsupported interaction type", publishTask := none }

/-! ## Signature verifier (`hexToBytes`, `validateSignature`,
main.cc lines 74-130) and startup key loading (lines 351-366) -/

/-- Whitespace of the default C locale, skipped by the strtol family
that underlies `std::stoi` and `std::stoll`. -/
def isSpaceChar (c : Char) : Bool :=
  c = ' ' || c = '\t' || c = '\n' || c = Char.ofNat 11 || c = Char.ofNat 12 || c = '\r'

/-- Value of one hexadecimal digit, `none` for a non-hex character. -/
def hexDigitVal (c : Char) : Option Nat :=
  if '0' ≤ c ∧ c ≤ '9' then some (c.toNat - 48)
  else if 'a' ≤ c ∧ c ≤ 'f' then some (c.toNat - 97 + 10)
  else if 'A' ≤ c ∧ c ≤ 'F' then some (c.toNat - 65 + 10)
  else none

/-- Longest hex-digit run at the head of a character list. -/
def takeHexDigits (cs : List Char) : List Char :=
  cs.takeWhile (fun c => (hexDigitVal c).isSome)

/-- Numeric value of a hex-digit run. -/
def hexDigitsVal (ds : List Char) : Nat :=
  ds.foldl (fun acc c => acc * 16 + (hexDigitVal c).getD 0) 0

/-- Numeric value of a decimal-digit run. -/
def decDigitsVal (ds : List Char) : Int :=
  ds.foldl (fun acc c => acc * 10 + ((c.toNat : Int) - 48)) 0

/-- Model of `std::stoi(s, nullptr, 16)` as called by `hexToBytes` on
chunks of at most two characters: strtol semantics — skip whitespace,
optional sign, an optional `0x`/`0X` prefix when a hex digit follows
(otherwise the leading `0` alone is the subject sequence), then the
longest run of hex digits; trailing characters are ignored; no digit at
all means `std::invalid_argument` (`none`).  Two characters encode an
absolute value of at most 255, so the out-of-range failure of
`std::stoi` cannot occur for these inputs and has no branch here. -/
def stoi16 (cs : List Char) : Option Int :=
  let signed : Int × List Char :=
    match cs.dropWhile isSpaceChar with
    | '-' :: rest => (-1, rest)
    | '+' :: rest => (1, rest)
    | rest => (1, rest)
  let body : List Char :=
    match signed.2 with
    | '0' :: x :: rest =>
      if (x = 'x' || x = 'X') && !(takeHexDigits rest).isEmpty then rest
      else '0' :: x :: rest
    | rest => rest
  let ds := takeHexDigits body
  if ds.isEmpty then none
  else some (signed.1 * (hexDigitsVal ds : Int))

/-- Model of `static_cast<unsigned char>` on an `int`: reduction modulo
256 into `[0, 256)`. -/
def toUChar (v : Int) : Nat := ((v % 256 + 256) % 256).toNat

/-- The substrings `hex.substr(i, 2)` for `i = 0, 2, 4, ...`: chunks of
two characters, with a final one-character chunk when the length is
odd. -/
def chunks2 : List Char → List (List Char)
  | [] => []
  | [c] => [[c]]
  | a :: b :: rest => [a, b] :: chunks2 rest

/-- The byte-accumulating loop of `hexToBytes`: each chunk is parsed
with `std::stoi(chunk, nullptr, 16)` and cast to `unsigned char`; a
parse failure throws, abandoning the whole conversion (`none`). -/
def hexLoop : List (List Char) → Option (List Nat)
  | [] => some []
  | chunk :: rest =>
    match stoi16 chunk with
    | none => none
    | some v =>
      match hexLoop rest with
      | none => none
      | some bs => some (toUChar v :: bs)

/-- Model of `hexToBytes` (main.cc lines 74-83).  The function itself
does not catch exceptions; `none` models `std::stoi` throwing out of
the loop to the caller. -/
def hexToBytes (hex : String) : Option (List Nat) :=
  hexLoop (chunks2 hex.data)

/-- Model of `std::stoll(timestamp)`: strtoll semantics — skip
whitespace, optional sign, longest run of decimal digits (trailing
characters ignored); no digit means `std::invalid_argument`, a value
outside the signed 64-bit range means `std::out_of_range`; both are
caught by the caller (`none`). -/
def stoll (s : String) : Option Int :=
  let signed : Int × List Char :=
    match s.data.dropWhile isSpaceChar with
    | '-' :: rest => (-1, rest)
    | '+' :: rest => (1, rest)
    | rest => (1, rest)
  let ds := signed.2.takeWhile Char.isDigit
  if ds.isEmpty then none
  else
    let v := signed.1 * decDigitsVal ds
    if v < -(2 ^ 63) ∨ 2 ^ 63 ≤ v then none else some v

/-- Model of `validateSignature` (main.cc lines 88-130).  The two
external effects are abstracted into arguments: `now` is the
`chrono::system_clock` wall-clock time in seconds, and `cryptoVerify`
models libsodium `crypto_sign_verify_detached`, true when the 64-byte
signature verifies the message bytes under the public key
(`crypto_sign_BYTES` = 64). -/
def validateSignature (cryptoVerify : List Nat → String → List Nat → Bool)
    (now : Int) (signature_hex timestamp body : String)
    (public_key : List Nat) : Bool :=
  if signature_hex.isEmpty || timestamp.isEmpty || public_key.isEmpty then false
  else
    match stoll timestamp with
    | none => false
    | some ts =>
      if now - ts > 5 then false
      else
        match hexToBytes signature_hex with
        | none => false
        | some signature =>
          if signature.length ≠ 64 then false
          else cryptoVerify signature (timestamp ++ body) public_key

/-- The part of `validateSignature` that is independent of the
freshness check: the empty-argument guard, hex decoding, the signature
length check and the cryptographic verification.  Used to state that a
fresh timestamp is not rejected by the freshness check. -/
def signatureCheckNoFreshness (cryptoVerify : List Nat → String → List Nat → Bool)
    (signature_hex timestamp body : String) (public_key : List Nat) : Bool :=
  if signature_hex.isEmpty || timestamp.isEmpty || public_key.isEmpty then false
  else
    match hexToBytes signature_hex with
    | none => false
    | some signature =>
      if signature.length ≠ 64 then false
      else cryptoVerify signature (timestamp ++ body) public_key

/-- Model of the `DISCORD_PUBLIC_KEY` handling in `main` (main.cc lines
351-366): `Except.error 1` is the non-zero process exit (absent
variable, `hexToBytes` throwing, or decoded length different from
`crypto_sign_PUBLICKEYBYTES` = 32); `Except.ok key` means the server
starts with that key. -/
def mainStartup (discordPublicKey : Option String) : Except Nat (List Nat) :=
  match discordPublicKey with
  | none => Except.error 1
  | some hex =>
    match hexToBytes hex with
    | none => Except.error 1
    | some key => if key.length ≠ 32 then Except.error 1 else Except.ok key

/-- Claim-side definition, written from the claim's words and not from
the source: a string is a valid base-10 integer when an optional sign
followed by at least one decimal digit spans the entire string. -/
def isValidBase10 (s : String) : Bool :=
  match s.data with
  | '-' :: rest => !rest.isEmpty && rest.all Char.isDigit
  | '+' :: rest => !rest.isEmpty && rest.all Char.isDigit
  | cs => !cs.isEmpty && cs.all Char.isDigit

/-- Claim-side definition, written from the claim's words and not from
the source: a well-formed hex encoding has even length and only
hexadecimal digits. -/
def isWellFormedHex (s : String) : Bool :=
  s.data.all (fun c => (hexDigitVal c).isSome) && s.length % 2 = 0

/-! ## Base64 encoder (`base64Encode`, main.cc lines 26-55) -/

/-- The encoding table of main.cc lines 26-27, which is the RFC 4648
section 4 alphabet. -/
def base64_chars : List Char :=
  ['A', 'B', 'C', 'D', 'E', 'F', 'G', 'H', 'I', 'J', 'K', 'L', 'M',
   'N', 'O', 'P', 'Q', 'R', 'S', 'T', 'U', 'V', 'W', 'X', 'Y', 'Z',
   'a', 'b', 'c', 'd', 'e', 'f', 'g', 'h', 'i', 'j', 'k', 'l', 'm',
   'n', 'o', 'p', 'q', 'r', 's', 't', 'u', 'v', 'w', 'x', 'y', 'z',
   '0', '1', '2', '3', '4', '5', '6', '7', '8', '9', '+', '/']

/-- Table lookup `base64_chars[i]`; the index is always masked to six
bits, so the default is never used. -/
def b64Char (i : Nat) : Char := base64_chars.getD i 'A'

/-- The inner `while (valb >= 0)` loop of `base64Encode`: emit the six
bits of the accumulator at position `valb` and step down by six.  The
C++ accumulator `val` is a 32-bit `int` that wraps; every extracted bit
sits at a position below 14, so the unbounded `Nat` accumulator emits
the same characters. -/
def emitWhile (val : Nat) (valb : Int) (out : List Char) : List Char × Int :=
  if h : 0 ≤ valb then
    emitWhile val (valb - 6) (out ++ [b64Char ((val >>> valb.toNat) &&& 63)])
  else (out, valb)
termination_by (valb + 6).toNat
decreasing_by simp_wf; omega

/-- The outer `for (unsigned char c : input)` loop of `base64Encode`:
shift each byte into the accumulator and run the emitting inner loop. -/
def encodeLoop : List Nat → Nat → Int → List Char → List Char × Nat × Int
  | [], val, valb, out => (out, val, valb)
  | c :: rest, val, valb, out =>
    encodeLoop rest ((val <<< 8) + c)
      (emitWhile ((val <<< 8) + c) (valb + 8) out).2
      (emitWhile ((val <<< 8) + c) (valb + 8) out).1

/-- The final partial-group character of `base64Encode`:
`base64_chars[((val << 8) >> (valb + 8)) & 0x3F]`. -/
def finalB64Char (val : Nat) (valb : Int) : Char :=
  b64Char (((val <<< 8) >>> (valb + 8).toNat) &&& 63)

/-- The `while (output.size() % 4) output.push_back('=')` padding loop
of `base64Encode`. -/
def padLoop (out : List Char) : List Char :=
  if out.length % 4 = 0 then out else padLoop (out ++ ['='])
termination_by (4 - out.length % 4) % 4
decreasing_by simp_wf; omega

/-- Model of `base64Encode` (main.cc lines 32-55): run the byte loop
from `val = 0`, `valb = -6`, append the final partial-group character
when `valb > -6`, then pad with `=` to a multiple of four. -/
def base64Encode (input : List Nat) : List Char :=
  padLoop
    (if (encodeLoop input 0 (-6) []).2.2 > -6 then
      (encodeLoop input 0 (-6) []).1
        ++ [finalB64Char (encodeLoop input 0 (-6) []).2.1 (encodeLoop input 0 (-6) []).2.2]
    else (encodeLoop input 0 (-6) []).1)

/-- Claim-side definition, written from the spec's words and not from
the source: standard RFC 4648 base64 — each three-byte group becomes
four alphabet characters, a trailing group of one or two bytes becomes
two or three characters followed by `=` padding to a multiple of
four. -/
def base64Rfc : List Nat → List Char
  | [] => []
  | [a] => [b64Char (a / 4), b64Char (a % 4 * 16), '=', '=']
  | [a, b] => [b64Char (a / 4), b64Char (a % 4 * 16 + b / 16), b64Char (b % 16 * 4), '=']
  | a :: b :: c :: rest =>
    b64Char (a / 4) :: b64Char (a % 4 * 16 + b / 16) :: b64Char (b % 16 * 4 + c / 64) ::
      b64Char (c % 64) :: base64Rfc rest

/-! ## Publisher (`publishToPubSub`, main.cc lines 167-249) -/

/-- The observable request a publish attempt sends to the sink: the
HTTP client base URL, the request path, the base64 message payload and
the attribute map. -/
structure PubSubRequest where
  clientUrl : String
  path : String
  data : String
  attributes : List (String × String)

/-- Model of `publishToPubSub` (main.cc lines 167-249).  External
library calls are abstracted into arguments: `writeJson` models
`Json::writeString` with empty indentation, producing the UTF-8 bytes
of the compact serialization; `asString` models `Value::asString`; and
`nowIso` is the `gmtime`-formatted publish timestamp.  The result is
the request handed to the HTTP client, or `none` for the early-return
no-op when the sink configuration is incomplete.  The transport
outcome is only logged and has no observable effect to model. -/
def publishToPubSub (writeJson : Json → List Nat) (asString : Json → String)
    (nowIso : String) (topic project emulatorHost : String)
    (interaction : Json) : Option PubSubRequest :=
  if topic.isEmpty || project.isEmpty || emulatorHost.isEmpty then none
  else
    let sanitized := sanitizeInteraction interaction
    let base64Data := String.mk (base64Encode (writeJson sanitized))
    let attrs : List (String × String) :=
      (if sanitized.isMember "id" then
        [("interaction_id", asString (sanitized.getField "id"))] else [])
      ++ (if sanitized.isMember "type" then
        [("interaction_type", toString (sanitized.getField "type").asInt)] else [])
      ++ (if sanitized.isMember "application_id" then
        [("application_id", asString (sanitized.getField "application_id"))] else [])
      ++ (if sanitized.isMember "guild_id" then
        [("guild_id", asString (sanitized.getField "guild_id"))] else [])
      ++ (if sanitized.isMember "channel_id" then
        [("channel_id", asString (sanitized.getField "channel_id"))] else [])
      ++ (if sanitized.isMember "data" && (sanitized.getField "data").isMember "name" then
        [("command_name", asString ((sanitized.getField "data").getField "name"))] else [])
      ++ [("timestamp", nowIso)]
    some { clientUrl := "http://" ++ emulatorHost,
           path := "/v1/projects/" ++ project ++ "/topics/" ++ topic ++ ":publish",
           data := base64Data,
           attributes := attrs }

/-! ## Lemmas about the Redactor -/

/-- The accumulator shape invariant of `sanitizeInteraction`: the
default-constructed value is null and stays null or an object. -/
def nullOrObj : Json → Bool
  | .null => true
  | .obj _ => true
  | _ => false

theorem any_setAssoc_ne (fields : List (String × Json)) (k k' : String) (v : Json)
    (hne : k' ≠ k) :
    (setAssoc fields k' v).any (fun f => f.1 == k) = fields.any (fun f => f.1 == k) := by
  induction fields with
  | nil => simp [setAssoc, hne]
  | cons f rest ih =>
    obtain ⟨k₁, v₁⟩ := f
    by_cases h : k₁ = k'
    · subst h
      simp [setAssoc, hne]
    · simp only [setAssoc, beq_iff_eq, if_neg h, List.any_cons, ih]

theorem find?_setAssoc_ne (fields : List (String × Json)) (k k' : String) (v : Json)
    (hne : k' ≠ k) :
    (setAssoc fields k' v).find? (fun f => f.1 == k) = fields.find? (fun f => f.1 == k) := by
  have hk'k : (k' == k) = false := by simp [hne]
  induction fields with
  | nil => simp [setAssoc, List.find?, hk'k]
  | cons f rest ih =>
    obtain ⟨k₁, v₁⟩ := f
    cases hb : (k₁ == k') with
    | true =>
      have h₁k : (k₁ == k) = false := by rw [show k₁ = k' from eq_of_beq hb]; exact hk'k
      simp [setAssoc, hb, List.find?, h₁k, hk'k]
    | false =>
      simp only [setAssoc, hb, Bool.false_eq_true, if_false, List.find?]
      cases hc : (k₁ == k) with
      | true => rfl
      | false => exact ih

theorem isMember_setField_ne (s : Json) (k k' : String) (v : Json) (hne : k' ≠ k) :
    (setField s k' v).isMember k = s.isMember k := by
  cases s <;> simp [setField, Json.isMember, hne]
  exact any_setAssoc_ne _ _ _ _ hne

theorem getField_setField_ne (s : Json) (k k' : String) (v : Json) (hne : k' ≠ k) :
    (setField s k' v).getField k = s.getField k := by
  cases s <;> simp [setField, Json.getField, hne]
  rw [find?_setAssoc_ne _ _ _ _ hne]

theorem any_setAssoc_self (fields : List (String × Json)) (k : String) (v : Json) :
    (setAssoc fields k v).any (fun f => f.1 == k) = true := by
  induction fields with
  | nil => simp [setAssoc]
  | cons f rest ih =>
    obtain ⟨k₁, v₁⟩ := f
    by_cases h : k₁ = k
    · simp [setAssoc, h]
    · simp [setAssoc, h, ih]

theorem find?_setAssoc_self (fields : List (String × Json)) (k : String) (v : Json) :
    (setAssoc fields k v).find? (fun f => f.1 == k) = some (k, v) := by
  induction fields with
  | nil => simp [setAssoc, List.find?]
  | cons f rest ih =>
    obtain ⟨k₁, v₁⟩ := f
    by_cases h : k₁ = k
    · simp [setAssoc, h, List.find?]
    · simp [setAssoc, h, List.find?, ih]

theorem isMember_setField_self (s : Json) (k : String) (v : Json)
    (hs : nullOrObj s = true) : (setField s k v).isMember k = true := by
  cases s with
  | null => simp [setField, Json.isMember]
  | obj fields =>
    show (setAssoc fields k v).any (fun f => f.1 == k) = true
    exact any_setAssoc_self fields k v
  | bool b => simp [nullOrObj] at hs
  | num n => simp [nullOrObj] at hs
  | str t => simp [nullOrObj] at hs
  | arr a => simp [nullOrObj] at hs

theorem getField_setField_self (s : Json) (k : String) (v : Json)
    (hs : nullOrObj s = true) : (setField s k v).getField k = v := by
  cases s <;> simp_all [setField, Json.getField, nullOrObj]
  rw [find?_setAssoc_self]

theorem nullOrObj_setField (s : Json) (k : String) (v : Json)
    (hs : nullOrObj s = true) : nullOrObj (setField s k v) = true := by
  cases s <;> simp_all [setField, nullOrObj]

theorem nullOrObj_copyField (e s : Json) (k : String)
    (hs : nullOrObj s = true) : nullOrObj (copyField e s k) = true := by
  unfold copyField
  split
  · exact nullOrObj_setField _ _ _ hs
  · exact hs

theorem isMember_copyField_ne (e s : Json) (k k' : String) (hne : k' ≠ k) :
    (copyField e s k').isMember k = s.isMember k := by
  unfold copyField
  split
  · exact isMember_setField_ne _ _ _ _ hne
  · rfl

theorem getField_copyField_ne (e s : Json) (k k' : String) (hne : k' ≠ k) :
    (copyField e s k').getField k = s.getField k := by
  unfold copyField
  split
  · exact getField_setField_ne _ _ _ _ hne
  · rfl

theorem foldl_copyField_not_mem (ks : List String) (e : Json) (k : String)
    (hk : k ∉ ks) : ∀ s : Json,
    (ks.foldl (copyField e) s).isMember k = s.isMember k ∧
    (ks.foldl (copyField e) s).getField k = s.getField k := by
  induction ks with
  | nil => intro s; exact ⟨rfl, rfl⟩
  | cons k₁ rest ih =>
    intro s
    have hne : k₁ ≠ k := fun h => hk (by simp [h])
    have hrest : k ∉ rest := fun h => hk (by simp [h])
    rw [List.foldl_cons]
    refine ⟨?_, ?_⟩
    · rw [(ih hrest _).1, isMember_copyField_ne _ _ _ _ hne]
    · rw [(ih hrest _).2, getField_copyField_ne _ _ _ _ hne]

theorem copyField_self_mem (e s : Json) (k : String) (hs : nullOrObj s = true)
    (hm : e.isMember k = true) :
    (copyField e s k).isMember k = true ∧ (copyField e s k).getField k = e.getField k := by
  unfold copyField
  rw [if_pos hm]
  exact ⟨isMember_setField_self _ _ _ hs, getField_setField_self _ _ _ hs⟩

theorem copyField_self_not_mem (e s : Json) (k : String)
    (hm : e.isMember k = false) : copyField e s k = s := by
  unfold copyField
  rw [if_neg (by simp [hm])]

theorem foldl_copyField_mem (ks : List String) (e : Json) (k : String)
    (hk : k ∈ ks) (hnd : ks.Nodup) : ∀ s : Json, nullOrObj s = true →
    s.isMember k = false →
    (ks.foldl (copyField e) s).isMember k = e.isMember k ∧
    (e.isMember k = true → (ks.foldl (copyField e) s).getField k = e.getField k) := by
  induction ks with
  | nil => cases hk
  | cons k₁ rest ih =>
    intro s hs hsm
    rw [List.foldl_cons]
    by_cases hkk : k₁ = k
    · subst hkk
      have hrest : k₁ ∉ rest := (List.nodup_cons.mp hnd).1
      have hpres := foldl_copyField_not_mem rest e k₁ hrest (copyField e s k₁)
      cases hm : e.isMember k₁ with
      | true =>
        obtain ⟨h1, h2⟩ := copyField_self_mem e s k₁ hs hm
        exact ⟨hpres.1.trans h1, fun _ => hpres.2.trans h2⟩
      | false =>
        rw [copyField_self_not_mem e s k₁ hm] at hpres ⊢
        exact ⟨hpres.1.trans hsm, fun hc => Bool.noConfusion hc⟩
    · have hkrest : k ∈ rest := by
        rcases List.mem_cons.mp hk with h | h
        · exact absurd h.symm hkk
        · exact h
      have hnd' : rest.Nodup := (List.nodup_cons.mp hnd).2
      refine ih hkrest hnd' (copyField e s k₁) (nullOrObj_copyField _ _ _ hs) ?_
      rw [isMember_copyField_ne _ _ _ _ hkk, hsm]

theorem foldl_copyField_congr (ks : List String) (e₁ e₂ : Json)
    (h : ∀ k ∈ ks, e₁.isMember k = e₂.isMember k ∧
      (e₁.isMember k = true → e₁.getField k = e₂.getField k)) :
    ∀ s : Json, ks.foldl (copyField e₁) s = ks.foldl (copyField e₂) s := by
  induction ks with
  | nil => intro s; rfl
  | cons k₁ rest ih =>
    intro s
    have hk₁ := h k₁ (by simp)
    have hrest : ∀ k ∈ rest, e₁.isMember k = e₂.isMember k ∧
        (e₁.isMember k = true → e₁.getField k = e₂.getField k) :=
      fun k hk => h k (by simp [hk])
    rw [List.foldl_cons, List.foldl_cons, ih hrest]
    congr 1
    unfold copyField
    rw [hk₁.1]
    cases hm : e₂.isMember k₁ with
    | true => rw [hk₁.2 (hk₁.1.trans hm)]
    | false => rfl

/-! ## Claim theorems: Redactor (C1, C10) -/

/-- C1: for every interaction envelope that is a JSON object, the
output of the Redactor `sanitizeInteraction` never has a `token`
member, and more generally no key outside the ten allow-listed names of
`allowedFields` is a member of the output. -/
theorem sanitize_drops_token_and_unlisted (e : Json) (hObj : e.isObject = true) :
    (sanitizeInteraction e).isMember "token" = false ∧
    ∀ k : String, k ∉ allowedFields → (sanitizeInteraction e).isMember k = false := by
  have base : ∀ k : String, k ∉ allowedFields →
      (sanitizeInteraction e).isMember k = false := by
    intro k hk
    exact (foldl_copyField_not_mem allowedFields e k hk Json.null).1
  exact ⟨base "token" (by decide), base⟩

/-- Witness for C1 at a concrete envelope that carries a `token`
field. -/
theorem sanitize_drops_token_and_unlisted_witness :
    (sanitizeInteraction (Json.obj [("token", Json.str "secret"), ("id", Json.str "42")])).isMember
      "token" = false ∧
    (sanitizeInteraction (Json.obj [("token", Json.str "secret"), ("id", Json.str "42")])).isMember
      "version" = false := by
  have h := sanitize_drops_token_and_unlisted
    (Json.obj [("token", Json.str "secret"), ("id", Json.str "42")]) (by decide)
  exact ⟨h.1, h.2 "version" (by decide)⟩

/-- C10: the Redactor is idempotent — sanitizing an already sanitized
object changes nothing, because every field the first pass kept is
allow-listed and copied again verbatim by the second pass. -/
theorem sanitize_idempotent (e : Json) (hObj : e.isObject = true) :
    sanitizeInteraction (sanitizeInteraction e) = sanitizeInteraction e := by
  unfold sanitizeInteraction
  refine foldl_copyField_congr allowedFields
    (allowedFields.foldl (copyField e) Json.null) e ?_ Json.null
  intro k hk
  have hm := foldl_copyField_mem allowedFields e k hk (by decide) Json.null rfl rfl
  exact ⟨hm.1, fun h1 => hm.2 (hm.1.symm.trans h1)⟩

/-- Witness for C10 at a concrete envelope. -/
theorem sanitize_idempotent_witness :
    sanitizeInteraction (sanitizeInteraction
      (Json.obj [("id", Json.str "1"), ("token", Json.str "t"), ("type", Json.num 2)])) =
    sanitizeInteraction
      (Json.obj [("id", Json.str "1"), ("token", Json.str "t"), ("type", Json.num 2)]) :=
  sanitize_idempotent _ (by decide)

/-! ## Claim theorems: dispatch and error mapping (C2, C3) -/

/-- C2: for a verified request whose body parses to a JSON object with
an integer `type` member: type 1 answers 200 with body exactly the
one-member object `type = 1` and spawns no publish task; type 2 answers
200 with body exactly the one-member object `type = 5` and hands the
envelope to a detached publish task; any other integer answers 400 with
the unsupported-interaction-type error and spawns no publish task. -/
theorem handle_dispatch_by_type (j : Json) (t : Int)
    (hobj : j.isObject = true) (hmem : j.isMember "type" = true)
    (hget : j.getField "type" = Json.num t)
    (hrange : -2147483648 ≤ t ∧ t ≤ 2147483647) :
    (t = 1 → handleInteraction true (some j) =
      { response := { status := 200, body := Json.obj [("type", Json.num 1)] },
        publishTask := none }) ∧
    (t = 2 → handleInteraction true (some j) =
      { response := { status := 200, body := Json.obj [("type", Json.num 5)] },
        publishTask := some j }) ∧
    (t ≠ 1 → t ≠ 2 → handleInteraction true (some j) =
      { response := errorResponse 400 "unsupported interaction type",
        publishTask := none }) := by
  have hint : (j.getField "type").isInt = true := by
    rw [hget]
    exact decide_eq_true hrange
  have hnum : (Json.num t).isInt = true := hget ▸ hint
  refine ⟨fun h1 => ?_, fun h2 => ?_, fun h1 h2 => ?_⟩
  · subst h1
    simp [handleInteraction, hobj, hmem, hget, hnum, Json.asInt, handlePing]
  · subst h2
    simp [handleInteraction, hobj, hmem, hget, hnum, Json.asInt, handleApplicationCommand]
  · simp [handleInteraction, hobj, hmem, hget, hnum, Json.asInt, h1, h2]

/-- Witness for C2 at concrete envelopes of type 1, 2 and 99. -/
theorem handle_dispatch_by_type_witness :
    handleInteraction true (some (Json.obj [("type", Json.num 1)])) =
      { response := { status := 200, body := Json.obj [("type", Json.num 1)] },
        publishTask := none } ∧
    handleInteraction true (some (Json.obj [("type", Json.num 2)])) =
      { response := { status := 200, body := Json.obj [("type", Json.num 5)] },
        publishTask := some (Json.obj [("type", Json.num 2)]) } ∧
    handleInteraction true (some (Json.obj [("type", Json.num 99)])) =
      { response := errorResponse 400 "unsupported interaction type",
        publishTask := none } := by
  refine ⟨?_, ?_, ?_⟩
  · exact (handle_dispatch_by_type (Json.obj [("type", Json.num 1)]) 1
      (by decide) (by decide) rfl (by decide)).1 rfl
  · exact (handle_dispatch_by_type (Json.obj [("type", Json.num 2)]) 2
      (by decide) (by decide) rfl (by decide)).2.1 rfl
  · exact (handle_dispatch_by_type (Json.obj [("type", Json.num 99)]) 99
      (by decide) (by decide) rfl (by decide)).2.2 (by decide) (by decide)

/-- C3: the handler's error mapping — a failed signature check answers
401 invalid-signature whatever the body parses to (the body is never
consulted); a valid signature with an unparsable body, or a body whose
top-level value is not an object, answers 400 invalid-JSON; an object
body whose `type` member is missing or not an integer answers 400
unsupported-interaction-type.  No error path spawns a publish task. -/
theorem handle_error_mapping :
    (∀ p : Option Json, handleInteraction false p =
      { response := errorResponse 401 "invalid signature", publishTask := none }) ∧
    (handleInteraction true none =
      { response := errorResponse 400 "invalid JSON", publishTask := none }) ∧
    (∀ j : Json, j.isObject = false → handleInteraction true (some j) =
      { response := errorResponse 400 "invalid JSON", publishTask := none }) ∧
    (∀ j : Json, j.isObject = true →
      j.isMember "type" = false ∨ (j.getField "type").isInt = false →
      handleInteraction true (some j) =
      { response := errorResponse 400 "unsupported interaction type",
        publishTask := none }) := by
  refine ⟨fun p => rfl, rfl, fun j hj => ?_, fun j hj hc => ?_⟩
  · simp [handleInteraction, hj]
  · have hcond : (j.isMember "type" && (j.getField "type").isInt) = false := by
      rcases hc with h | h <;> simp [h]
    simp [handleInteraction, hj, hcond]

/-- Witness for C3: a rejected signature with a well-formed Ping body,
an unparsable body, an array body, and an object body with a string
`type`. -/
theorem handle_error_mapping_witness :
    handleInteraction false (some (Json.obj [("type", Json.num 1)])) =
      { response := errorResponse 401 "invalid signature", publishTask := none } ∧
    handleInteraction true none =
      { response := errorResponse 400 "invalid JSON", publishTask := none } ∧
    handleInteraction true (some (Json.arr [Json.num 1])) =
      { response := errorResponse 400 "invalid JSON", publishTask := none } ∧
    handleInteraction true (some (Json.obj [("type", Json.str "1")])) =
      { response := errorResponse 400 "unsupported interaction type", publishTask := none } := by
  refine ⟨?_, ?_, ?_, ?_⟩
  · exact handle_error_mapping.1 (some (Json.obj [("type", Json.num 1)]))
  · exact handle_error_mapping.2.1
  · exact handle_error_mapping.2.2.1 (Json.arr [Json.num 1]) rfl
  · exact handle_error_mapping.2.2.2 (Json.obj [("type", Json.str "1")]) rfl (Or.inr rfl)

/-! ## Claim theorems: signature verifier (C4, C5, C6), startup (C7)
and publisher configuration (C8) -/

/-- C4: freshness — for a timestamp string that std::stoll parses to
the integer t, the verifier rejects because of staleness exactly when
now - t > 5 strictly: in that case the result is false, and when
now - t ≤ 5 (equal, smaller, or negative, i.e. future timestamps) the
result coincides with the freshness-independent remainder of the
pipeline, so the freshness check never rejects such a timestamp. -/
theorem validate_freshness_window
    (cryptoVerify : List Nat → String → List Nat → Bool) (now : Int)
    (sig ts body : String) (pk : List Nat) (t : Int) (hts : stoll ts = some t) :
    (now - t > 5 → validateSignature cryptoVerify now sig ts body pk = false) ∧
    (now - t ≤ 5 → validateSignature cryptoVerify now sig ts body pk =
      signatureCheckNoFreshness cryptoVerify sig ts body pk) := by
  unfold validateSignature signatureCheckNoFreshness
  rw [hts]
  by_cases hg : (sig.isEmpty || ts.isEmpty || pk.isEmpty) = true
  · simp [hg]
  · refine ⟨fun h5 => ?_, fun h5 => ?_⟩
    · simp [hg, h5]
    · simp [hg, not_lt.mpr h5]

/-- Witness for C4: with a cooperative crypto oracle and a decodable
64-byte signature, timestamp 10 is rejected at now = 16 (difference 6)
and falls through to the remaining checks at now = 15 (difference 5). -/
theorem validate_freshness_window_witness :
    validateSignature (fun _ _ _ => true) 16
      (String.mk (List.replicate 128 'a')) "10" "" [1] = false ∧
    validateSignature (fun _ _ _ => true) 15
      (String.mk (List.replicate 128 'a')) "10" "" [1] =
      signatureCheckNoFreshness (fun _ _ _ => true)
        (String.mk (List.replicate 128 'a')) "10" "" [1] :=
  ⟨(validate_freshness_window (fun _ _ _ => true) 16
      (String.mk (List.replicate 128 'a')) "10" "" [1] 10 (by decide)).1 (by decide),
   (validate_freshness_window (fun _ _ _ => true) 15
      (String.mk (List.replicate 128 'a')) "10" "" [1] 10 (by decide)).2 (by decide)⟩

set_option maxRecDepth 8000 in
/-- C5 counterexample: the timestamp string consisting of the digit 5
followed by the letter x is not a valid base-10 integer, yet std::stoll
parses it to 5 ignoring the trailing letter; with now = 6, a decodable
64-byte signature and a cooperative crypto oracle the verifier
accepts.  The claim that every timestamp string that is not a valid
base-10 integer makes verify return false is therefore falsified. -/
theorem validate_nondigit_timestamp_counterexample :
    isValidBase10 "5x" = false ∧
    validateSignature (fun _ _ _ => true) 6
      (String.mk (List.replicate 128 'a')) "5x" "" [1] = true :=
  ⟨by decide, by decide⟩

/-- C5 amended: whenever std::stoll fails on the timestamp — no decimal
digit after the optional whitespace and sign, or a value outside the
signed 64-bit range — the verifier returns false.  Strings with a valid
integer prefix followed by other characters parse to the prefix and are
not rejected by parsing. -/
theorem validate_unparsable_timestamp_rejected
    (cryptoVerify : List Nat → String → List Nat → Bool) (now : Int)
    (sig ts body : String) (pk : List Nat) (hts : stoll ts = none) :
    validateSignature cryptoVerify now sig ts body pk = false := by
  unfold validateSignature
  rw [hts]
  split <;> rfl

/-- Witness for the amended C5 at a timestamp with no digits. -/
theorem validate_unparsable_timestamp_rejected_witness :
    validateSignature (fun _ _ _ => true) 0
      (String.mk (List.replicate 128 'a')) "xyz" "" [1] = false :=
  validate_unparsable_timestamp_rejected (fun _ _ _ => true) 0
    (String.mk (List.replicate 128 'a')) "xyz" "" [1] (by decide)

set_option maxRecDepth 8000 in
/-- C6 counterexample: a 127-character signature string of hex digit a
has odd length — and is no well-formed hex encoding — yet decodes to
exactly 64 bytes, because std::stoi accepts the final one-character
chunk; likewise a 128-character string alternating a and z contains
non-hex characters but decodes, because std::stoi only reads the
leading hex digit of each chunk and ignores the rest.  With a fresh
timestamp and a cooperative crypto oracle the verifier accepts both, so
the claim that odd length or any non-hex character always makes verify
return false is falsified. -/
theorem validate_hex_counterexample :
    (String.mk (List.replicate 127 'a')).length % 2 = 1 ∧
    isWellFormedHex (String.mk (List.replicate 127 'a')) = false ∧
    validateSignature (fun _ _ _ => true) 0
      (String.mk (List.replicate 127 'a')) "0" "" [1] = true ∧
    isWellFormedHex (String.mk (List.flatten (List.replicate 64 ['a', 'z']))) = false ∧
    validateSignature (fun _ _ _ => true) 0
      (String.mk (List.flatten (List.replicate 64 ['a', 'z']))) "0" "" [1] = true :=
  ⟨by decide, by decide, by decide, by decide, by decide⟩

/-- C6 amended: the verifier returns false when hex decoding throws —
some chunk of two characters (or the final single character) has no
parsable hex prefix — and when the decoded byte count, one byte per
chunk, differs from 64.  Odd length by itself, or a non-hex character
in the second position of a chunk, does not cause rejection. -/
theorem validate_hex_decode_rejections
    (cryptoVerify : List Nat → String → List Nat → Bool) (now : Int)
    (sig ts body : String) (pk : List Nat) :
    (hexToBytes sig = none → validateSignature cryptoVerify now sig ts body pk = false) ∧
    (∀ bs : List Nat, hexToBytes sig = some bs → bs.length ≠ 64 →
      validateSignature cryptoVerify now sig ts body pk = false) := by
  unfold validateSignature
  constructor
  · intro h
    split
    · rfl
    · split
      · rfl
      · split
        · rfl
        · rw [h]
  · intro bs hbs hlen
    split
    · rfl
    · split
      · rfl
      · split
        · rfl
        · rw [hbs]
          simp [hlen]

/-- Witness for the amended C6: a chunk with no hex prefix is rejected,
and a four-character string decoding to two bytes is rejected by the
length check. -/
theorem validate_hex_decode_rejections_witness :
    validateSignature (fun _ _ _ => true) 0 "zz" "0" "" [1] = false ∧
    validateSignature (fun _ _ _ => true) 0 "aaaa" "0" "" [1] = false :=
  ⟨(validate_hex_decode_rejections (fun _ _ _ => true) 0 "zz" "0" "" [1]).1 (by decide),
   (validate_hex_decode_rejections (fun _ _ _ => true) 0 "aaaa" "0" "" [1]).2
     [170, 170] (by decide) (by decide)⟩

set_option maxRecDepth 8000 in
/-- C7 counterexample: a 63-character key of hex digit a is not a
well-formed hex encoding (odd length), yet `hexToBytes` decodes its 32
chunks — the final lone character becomes its own byte — to exactly 32
bytes, so `main` accepts it and starts the server instead of refusing. -/
theorem startup_odd_key_counterexample :
    isWellFormedHex (String.mk (List.replicate 63 'a')) = false ∧
    mainStartup (some (String.mk (List.replicate 63 'a'))) =
      Except.ok (List.replicate 31 170 ++ [10]) :=
  ⟨by decide, by rfl⟩

/-- C7 amended: the process refuses to start with a non-zero exit when
DISCORD_PUBLIC_KEY is absent, when `hexToBytes` throws on it, or when
the decoded byte count differs from 32; a malformed odd-length hex
string whose chunks all parse — such as 63 hex digits, which decode to
32 bytes — is however accepted. -/
theorem startup_key_rejections (hex : String) :
    mainStartup none = Except.error 1 ∧
    (hexToBytes hex = none → mainStartup (some hex) = Except.error 1) ∧
    (∀ key : List Nat, hexToBytes hex = some key → key.length ≠ 32 →
      mainStartup (some hex) = Except.error 1) := by
  refine ⟨rfl, fun h => ?_, fun key hk hlen => ?_⟩
  · simp [mainStartup, h]
  · simp [mainStartup, hk, hlen]

/-- Witness for the amended C7: an undecodable key and a key of the
wrong decoded length are both refused. -/
theorem startup_key_rejections_witness :
    mainStartup (some "zz") = Except.error 1 ∧
    mainStartup (some "aaaa") = Except.error 1 :=
  ⟨(startup_key_rejections "zz").2.1 (by decide),
   (startup_key_rejections "aaaa").2.2 [170, 170] (by decide) (by decide)⟩

/-- C8: a publish attempt is a no-op — nothing is sent to the sink —
whenever any element of the sink configuration (topic, project
identifier, emulator host) is empty, for every envelope, serializer,
string conversion and timestamp. -/
theorem publish_noop_incomplete_config (writeJson : Json → List Nat)
    (asString : Json → String) (nowIso : String)
    (topic project emulatorHost : String) (interaction : Json)
    (h : topic.isEmpty = true ∨ project.isEmpty = true ∨ emulatorHost.isEmpty = true) :
    publishToPubSub writeJson asString nowIso topic project emulatorHost interaction = none := by
  unfold publishToPubSub
  rcases h with h | h | h <;> simp [h]

/-- Witness for C8 with an empty topic, an empty project and an empty
host in turn. -/
theorem publish_noop_incomplete_config_witness :
    publishToPubSub (fun _ => []) (fun _ => "") "now" "" "proj" "host" (Json.obj []) = none ∧
    publishToPubSub (fun _ => []) (fun _ => "") "now" "topic" "" "host" (Json.obj []) = none ∧
    publishToPubSub (fun _ => []) (fun _ => "") "now" "topic" "proj" "" (Json.obj []) = none :=
  ⟨publish_noop_incomplete_config _ _ "now" "" "proj" "host" (Json.obj []) (Or.inl (by decide)),
   publish_noop_incomplete_config _ _ "now" "topic" "" "host" (Json.obj []) (Or.inr (Or.inl (by decide))),
   publish_noop_incomplete_config _ _ "now" "topic" "proj" "" (Json.obj []) (Or.inr (Or.inr (by decide)))⟩

/-! ## Claim theorem: base64 refinement (C9) -/

theorem emitWhile_neg (val : Nat) (valb : Int) (out : List Char) (h : valb < 0) :
    emitWhile val valb out = (out, valb) := by
  unfold emitWhile
  rw [dif_neg (not_le.mpr h)]

theorem emitWhile_two (val : Nat) (out : List Char) :
    emitWhile val 2 out = (out ++ [b64Char ((val >>> 2) &&& 63)], -4) := by
  unfold emitWhile
  rw [dif_pos (by norm_num : (0:Int) ≤ 2)]
  rw [emitWhile_neg _ _ _ (by norm_num)]
  norm_num
  rfl

theorem emitWhile_four (val : Nat) (out : List Char) :
    emitWhile val 4 out = (out ++ [b64Char ((val >>> 4) &&& 63)], -2) := by
  unfold emitWhile
  rw [dif_pos (by norm_num : (0:Int) ≤ 4)]
  rw [emitWhile_neg _ _ _ (by norm_num)]
  norm_num
  rfl

theorem emitWhile_six (val : Nat) (out : List Char) :
    emitWhile val 6 out =
      (out ++ [b64Char ((val >>> 6) &&& 63), b64Char (val &&& 63)], -6) := by
  unfold emitWhile
  rw [dif_pos (by norm_num : (0:Int) ≤ 6)]
  unfold emitWhile
  rw [dif_pos (by norm_num : (0:Int) ≤ 6 - 6)]
  rw [emitWhile_neg _ _ _ (by norm_num)]
  norm_num
  rfl

theorem emitWhile_two_fst (val : Nat) (out : List Char) :
    (emitWhile val 2 out).1 = out ++ [b64Char ((val >>> 2) &&& 63)] := by
  rw [emitWhile_two]

theorem emitWhile_two_snd (val : Nat) (out : List Char) :
    (emitWhile val 2 out).2 = -4 := by
  rw [emitWhile_two]

theorem emitWhile_four_fst (val : Nat) (out : List Char) :
    (emitWhile val 4 out).1 = out ++ [b64Char ((val >>> 4) &&& 63)] := by
  rw [emitWhile_four]

theorem emitWhile_four_snd (val : Nat) (out : List Char) :
    (emitWhile val 4 out).2 = -2 := by
  rw [emitWhile_four]

theorem emitWhile_six_fst (val : Nat) (out : List Char) :
    (emitWhile val 6 out).1 = out ++ [b64Char ((val >>> 6) &&& 63), b64Char (val &&& 63)] := by
  rw [emitWhile_six]

theorem emitWhile_six_snd (val : Nat) (out : List Char) :
    (emitWhile val 6 out).2 = -6 := by
  rw [emitWhile_six]

theorem encodeLoop_cons (cbyte : Nat) (rest : List Nat) (val : Nat) (valb : Int)
    (out : List Char) :
    encodeLoop (cbyte :: rest) val valb out =
      encodeLoop rest ((val <<< 8) + cbyte)
        (emitWhile ((val <<< 8) + cbyte) (valb + 8) out).2
        (emitWhile ((val <<< 8) + cbyte) (valb + 8) out).1 := rfl

theorem emit_ix1 (val a : Nat) (ha : a < 256) :
    (((val <<< 8) + a) >>> 2) &&& 63 = a / 4 := by
  rw [Nat.and_pow_two_sub_one_eq_mod _ 6, Nat.shiftRight_eq_div_pow]
  simp only [Nat.shiftLeft_eq]
  omega

theorem emit_ix2 (val a b : Nat) (ha : a < 256) (hb : b < 256) :
    ((((val <<< 8) + a) <<< 8 + b) >>> 4) &&& 63 = a % 4 * 16 + b / 16 := by
  rw [Nat.and_pow_two_sub_one_eq_mod _ 6, Nat.shiftRight_eq_div_pow]
  simp only [Nat.shiftLeft_eq]
  omega

theorem emit_ix3 (val a b c : Nat) (ha : a < 256) (hb : b < 256) (hc : c < 256) :
    (((((val <<< 8) + a) <<< 8 + b) <<< 8 + c) >>> 6) &&& 63 = b % 16 * 4 + c / 64 := by
  rw [Nat.and_pow_two_sub_one_eq_mod _ 6, Nat.shiftRight_eq_div_pow]
  simp only [Nat.shiftLeft_eq]
  omega

theorem emit_ix4 (val a b c : Nat) (ha : a < 256) (hb : b < 256) (hc : c < 256) :
    ((((val <<< 8) + a) <<< 8 + b) <<< 8 + c) &&& 63 = c % 64 := by
  rw [Nat.and_pow_two_sub_one_eq_mod _ 6]
  simp only [Nat.shiftLeft_eq]
  omega

theorem finalB64Char_at_neg4 (val a : Nat) (ha : a < 256) :
    finalB64Char ((val <<< 8) + a) (-4) = b64Char (a % 4 * 16) := by
  unfold finalB64Char
  rw [show ((-4 : Int) + 8).toNat = 4 from rfl]
  congr 1
  rw [Nat.and_pow_two_sub_one_eq_mod _ 6, Nat.shiftRight_eq_div_pow]
  simp only [Nat.shiftLeft_eq]
  omega

theorem finalB64Char_at_neg2 (val a b : Nat) (ha : a < 256) (hb : b < 256) :
    finalB64Char (((val <<< 8) + a) <<< 8 + b) (-2) = b64Char (b % 16 * 4) := by
  unfold finalB64Char
  rw [show ((-2 : Int) + 8).toNat = 6 from rfl]
  congr 1
  rw [Nat.and_pow_two_sub_one_eq_mod _ 6, Nat.shiftRight_eq_div_pow]
  simp only [Nat.shiftLeft_eq]
  omega

theorem encodeLoop_cons3 (a b c : Nat) (rest : List Nat) (val : Nat) (out : List Char)
    (ha : a < 256) (hb : b < 256) (hc : c < 256) :
    encodeLoop (a :: b :: c :: rest) val (-6) out =
      encodeLoop rest ((((val <<< 8) + a) <<< 8 + b) <<< 8 + c) (-6)
        (out ++ [b64Char (a / 4), b64Char (a % 4 * 16 + b / 16),
                 b64Char (b % 16 * 4 + c / 64), b64Char (c % 64)]) := by
  rw [encodeLoop_cons, show ((-6 : Int) + 8) = 2 from by norm_num,
    emitWhile_two_fst, emitWhile_two_snd]
  rw [encodeLoop_cons, show ((-4 : Int) + 8) = 4 from by norm_num,
    emitWhile_four_fst, emitWhile_four_snd]
  rw [encodeLoop_cons, show ((-2 : Int) + 8) = 6 from by norm_num,
    emitWhile_six_fst, emitWhile_six_snd]
  rw [emit_ix1 val a ha, emit_ix2 val a b ha hb, emit_ix3 val a b c ha hb hc,
    emit_ix4 val a b c ha hb hc]
  simp [List.append_assoc]

theorem padLoop_mod0 (out : List Char) (h : out.length % 4 = 0) : padLoop out = out := by
  unfold padLoop
  rw [if_pos h]

theorem padLoop_mod3 (out : List Char) (h : out.length % 4 = 3) :
    padLoop out = out ++ ['='] := by
  unfold padLoop
  rw [if_neg (by omega)]
  unfold padLoop
  rw [if_pos (by simp only [List.length_append, List.length_cons, List.length_nil]; omega)]

theorem padLoop_mod2 (out : List Char) (h : out.length % 4 = 2) :
    padLoop out = out ++ ['=', '='] := by
  unfold padLoop
  rw [if_neg (by omega)]
  rw [padLoop_mod3 _ (by simp only [List.length_append, List.length_cons, List.length_nil]; omega)]
  simp

theorem encodeLoop_rfc : ∀ l : List Nat, (∀ x ∈ l, x < 256) →
    ∀ (val : Nat) (out : List Char), out.length % 4 = 0 →
    padLoop (if (encodeLoop l val (-6) out).2.2 > -6 then
        (encodeLoop l val (-6) out).1 ++
          [finalB64Char (encodeLoop l val (-6) out).2.1 (encodeLoop l val (-6) out).2.2]
      else (encodeLoop l val (-6) out).1) = out ++ base64Rfc l := by
  intro l
  induction l using base64Rfc.induct with
  | case1 =>
    intro hl val out hout
    show padLoop out = out ++ base64Rfc []
    rw [padLoop_mod0 _ hout]
    simp [base64Rfc]
  | case2 a =>
    intro hl val out hout
    have ha : a < 256 := hl a (by simp)
    rw [encodeLoop_cons, show ((-6 : Int) + 8) = 2 from by norm_num,
      emitWhile_two_fst, emitWhile_two_snd]
    show padLoop ((out ++ [b64Char ((((val <<< 8) + a) >>> 2) &&& 63)]) ++
        [finalB64Char ((val <<< 8) + a) (-4)]) = out ++ base64Rfc [a]
    rw [finalB64Char_at_neg4 val a ha, emit_ix1 val a ha]
    rw [padLoop_mod2 _ (by simp only [List.length_append, List.length_cons, List.length_nil]; omega)]
    simp [base64Rfc, List.append_assoc]
  | case3 a b =>
    intro hl val out hout
    have ha : a < 256 := hl a (by simp)
    have hb : b < 256 := hl b (by simp)
    rw [encodeLoop_cons, show ((-6 : Int) + 8) = 2 from by norm_num,
      emitWhile_two_fst, emitWhile_two_snd]
    rw [encodeLoop_cons, show ((-4 : Int) + 8) = 4 from by norm_num,
      emitWhile_four_fst, emitWhile_four_snd]
    show padLoop (((out ++ [b64Char ((((val <<< 8) + a) >>> 2) &&& 63)]) ++
        [b64Char (((((val <<< 8) + a) <<< 8 + b) >>> 4) &&& 63)]) ++
        [finalB64Char (((val <<< 8) + a) <<< 8 + b) (-2)]) = out ++ base64Rfc [a, b]
    rw [finalB64Char_at_neg2 val a b ha hb, emit_ix1 val a ha, emit_ix2 val a b ha hb]
    rw [padLoop_mod3 _ (by simp only [List.length_append, List.length_cons, List.length_nil]; omega)]
    simp [base64Rfc, List.append_assoc]
  | case4 a b c rest ih =>
    intro hl val out hout
    have ha : a < 256 := hl a (by simp)
    have hb : b < 256 := hl b (by simp)
    have hc : c < 256 := hl c (by simp)
    rw [encodeLoop_cons3 a b c rest val out ha hb hc]
    rw [ih (fun x hx => hl x (by simp [hx])) _ _
      (by simp only [List.length_append, List.length_cons, List.length_nil]; omega)]
    simp [base64Rfc, List.append_assoc]

/-- C9: for every byte string, the hand-rolled `base64Encode` produces
output byte-identical to the standard RFC 4648 base64 encoding with
`=` padding to a multiple of four that a standard-library encoder
would produce. -/
theorem base64Encode_eq_rfc (input : List Nat) (h : ∀ x ∈ input, x < 256) :
    base64Encode input = base64Rfc input := by
  unfold base64Encode
  exact encodeLoop_rfc input h 0 [] rfl

/-- Witness for C9 at a concrete input: one full three-byte group and a
one-byte remainder group. -/
theorem base64Encode_eq_rfc_witness :
    base64Encode [77, 97, 110, 1] = base64Rfc [77, 97, 110, 1] ∧
    base64Rfc [77, 97, 110, 1] = ['T', 'W', 'F', 'u', 'A', 'Q', '=', '='] :=
  ⟨base64Encode_eq_rfc [77, 97, 110, 1] (by decide), by decide⟩
